import Mathlib

/-!
Verification development for the `practical-opentelemetry-for-cats` tutorial
repository (a Go + Gin HTTP service and a React web client instrumented with
OpenTelemetry).

Shallow embedding conventions:
* Environment lookups (`os.LookupEnv`) become an explicit argument
  `lookupEnv : String → Option String`.
* Fallible calls become outcomes supplied by an abstract `HttpWorld`,
  since their results come from the outside world:
  `http.NewRequestWithContext`, `client.Do` and `ioutil.ReadAll` as
  `Except String _`; `json.Unmarshal`, which writes into the struct it is
  handed and may partially populate it before returning an error, as the
  pair of the struct contents it leaves behind and an optional error.
* Go `float32` fields of `apiResponse` are modelled as `Int`: no floating
  arithmetic is performed anywhere in the repository, only the zero value
  and pass-through of these fields matter.
* SDK behaviour that the repository configures but does not implement
  (W3C trace-context propagation, the batching span processor, the span
  lifecycle, parent/child linkage) is modelled from the specification;
  each such definition's doc comment starts with `Modelled from the spec:`.
-/

namespace PracticalOtel

/-! ## Configuration (src/go/final/otel.go, src/web/final/src/tracer.js) -/

/-- Configuration assembled by `InitOpenTelemetry` in src/go/final/otel.go:
the OTLP gRPC endpoint, the insecure toggle, the resource service name and
the batching options passed to `sdktrace.WithBatcher`. -/
structure OtelConfig where
  endpoint : String
  insecure : Bool
  serviceName : String
  batchTimeoutMs : Nat
  maxExportBatchSize : Nat
  deriving Repr, DecidableEq

/-- Embedding of `InitOpenTelemetry` (src/go/final/otel.go lines 19-50):
`endpoint := "localhost:4317"`, overwritten by the value of the
`COLLECTOR_ENDPOINT` environment variable when that variable is set, then
passed to `otlpgrpc.WithEndpoint` together with `otlpgrpc.WithInsecure()`;
the provider is built with service name "go-server", a 5-second batch
timeout and a max export batch size of 10. -/
def InitOpenTelemetry (lookupEnv : String → Option String) : OtelConfig :=
  let endpoint := "localhost:4317"
  let endpoint :=
    match lookupEnv "COLLECTOR_ENDPOINT" with
    | some collector => collector
    | none => endpoint
  { endpoint := endpoint
    insecure := true
    serviceName := "go-server"
    batchTimeoutMs := 5000
    maxExportBatchSize := 10 }

/-- Embedding of the web client's collector exporter construction
(src/web/final/src/tracer.js lines 15-18): the `CollectorTraceExporter`
is built with the literal `url: 'http://localhost:55681/v1/trace'`.
The function takes the process environment as an argument to make the
absence of any environment dependence explicit: tracer.js reads no
environment variable, so the url is the same for every environment. -/
def collectorTraceExporterUrl (_lookupEnv : String → Option String) : String :=
  "http://localhost:55681/v1/trace"

/-! ## Request handler (src/go/final/main.go) -/

/-- The `apiResponse` struct of src/go/final/main.go; `float32` fields are
modelled as `Int` (only the zero value and pass-through matter). -/
structure apiResponse where
  activity : String
  accessibility : Int
  type : String
  participants : Int
  price : Int
  deriving Repr, DecidableEq

/-- The Go zero value `apiResponse{}`. -/
def zeroApiResponse : apiResponse :=
  { activity := "", accessibility := 0, type := "", participants := 0, price := 0 }

/-- Outcomes of the four fallible calls made by `getActivityWithParams`:
request construction, the HTTP round-trip, reading the response body, and
JSON unmarshalling of a given body. The first three are `Except` values
carrying the Go error's message on failure. `unmarshal` models
`json.Unmarshal(body, &activityResponse)`, which writes into the struct it
is given and returns an error separately: it yields the contents the call
leaves in the struct (Go's Unmarshal decodes what it can and may have
partially populated the struct before returning an error such as an
`UnmarshalTypeError`) together with the optional error; with no error the
first component is the fully decoded value. -/
structure HttpWorld where
  newRequest : Except String Unit
  doRequest : Except String Unit
  readAll : Except String String
  unmarshal : String → apiResponse × Option String

/-- Observable outcome of one call to `getActivityWithParams`: the returned
value and error, and the span started for the function (its name, its
attributes, the events added to it, and whether the deferred `span.End()`
ran). -/
structure GetActivityOutcome where
  response : apiResponse
  error : Option String
  spanName : String
  spanAttrs : List (String × String)
  spanEvents : List String
  spanEnded : Bool
  deriving Repr, DecidableEq

/-- Embedding of `getActivityWithParams` (src/go/final/main.go lines 59-90):
starts a span named "getActivityWithParams" with attribute
`activityType = t`; on each failing step adds the error's message as a span
event and returns `activityResponse` together with that error — the zero
value on the first three steps, which never touch `activityResponse`, but
on the unmarshal step whatever `json.Unmarshal` left in the struct, since
line 87 returns `activityResponse, err` after the call. The deferred
`span.End()` runs on every path. -/
def getActivityWithParams (w : HttpWorld) (t : String) : GetActivityOutcome :=
  let name := "getActivityWithParams"
  let attrs := [("activityType", t)]
  match w.newRequest with
  | .error e =>
    { response := zeroApiResponse, error := some e, spanName := name
      spanAttrs := attrs, spanEvents := [e], spanEnded := true }
  | .ok _ =>
    match w.doRequest with
    | .error e =>
      { response := zeroApiResponse, error := some e, spanName := name
        spanAttrs := attrs, spanEvents := [e], spanEnded := true }
    | .ok _ =>
      match w.readAll with
      | .error e =>
        { response := zeroApiResponse, error := some e, spanName := name
          spanAttrs := attrs, spanEvents := [e], spanEnded := true }
      | .ok body =>
        match w.unmarshal body with
        | (written, some e) =>
          { response := written, error := some e, spanName := name
            spanAttrs := attrs, spanEvents := [e], spanEnded := true }
        | (written, none) =>
          { response := written, error := none, spanName := name
            spanAttrs := attrs, spanEvents := [], spanEnded := true }

/-- One write performed on the Gin response: `c.String(status, body)` or
`c.JSON(status, value)`. -/
inductive ResponseWrite where
  | strWrite (status : Nat) (body : String)
  | jsonWrite (status : Nat) (body : apiResponse)
  deriving Repr, DecidableEq

/-- Observable outcome of one call to `handleForm`: the attributes set on
the request's server span and the sequence of response writes, in order. -/
structure HandleFormOutcome where
  serverSpanAttrs : List (String × Bool)
  writes : List ResponseWrite
  deriving Repr, DecidableEq

/-- Embedding of `handleForm` (src/go/final/main.go lines 49-57): reads the
form field "type", sets the server span's boolean attribute
`emptyForm := len(formType) > 0`, calls `getActivityWithParams`; when that
returns an error it writes a 500 string response with the error text, and
— the error branch having no `return` — falls through to
`c.JSON(http.StatusOK, activity)` unconditionally. -/
def handleForm (w : HttpWorld) (formType : String) : HandleFormOutcome :=
  let attr := ("emptyForm", decide (formType.length > 0))
  let r := getActivityWithParams w formType
  { serverSpanAttrs := [attr]
    writes :=
      (match r.error with
       | some e => [ResponseWrite.strWrite 500 e]
       | none => []) ++ [ResponseWrite.jsonWrite 200 r.response] }

/-! ## W3C trace-context propagation

Modelled from the spec: the repository registers
`propagation.NewCompositeTextMapPropagator(propagation.TraceContext{}, propagation.Baggage{})`
(src/go/final/otel.go line 48) but the propagator implementations live in
the OpenTelemetry SDK, not in this repository; the definitions below follow
the spec's description of the `traceparent` text encoding
(`version-traceid-spanid-flags`, 2/32/16/2 lowercase hex fields,
dash-separated) and of extraction (malformed or absent header yields a
context with no active span). Header values are modelled as `List Char`. -/

/-- Lowercase hex digit character for a value below 16. -/
def hexDigitChar (v : Nat) : Char :=
  if v < 10 then Char.ofNat (48 + v) else Char.ofNat (87 + v)

/-- Value of a lowercase hex digit character; `none` on a non-hex char. -/
def hexCharVal (c : Char) : Option Nat :=
  if 48 ≤ c.toNat ∧ c.toNat ≤ 57 then some (c.toNat - 48)
  else if 97 ≤ c.toNat ∧ c.toNat ≤ 102 then some (c.toNat - 87)
  else none

/-- Big-endian fixed-width hex rendering of a natural number. -/
def toHexChars : Nat → Nat → List Char
  | 0, _ => []
  | w + 1, n => toHexChars w (n / 16) ++ [hexDigitChar (n % 16)]

/-- Parses a big-endian hex digit string; `none` when any char is not a
lowercase hex digit. -/
def parseHexChars : List Char → Option Nat
  | [] => some 0
  | c :: cs =>
    match hexCharVal c, parseHexChars cs with
    | some v, some rest => some (v * 16 ^ cs.length + rest)
    | _, _ => none

/-- Splits a char list on a separator char; a list with `k` separators
yields `k + 1` fields. -/
def splitOnChar (sep : Char) : List Char → List (List Char)
  | [] => [[]]
  | c :: rest =>
    if c = sep then [] :: splitOnChar sep rest
    else
      match splitOnChar sep rest with
      | [] => [[c]]
      | f :: fs => (c :: f) :: fs

/-- An active span's propagated identity: 128-bit trace id, 64-bit span id
and the sampled flag, ids as `Nat` bounded by the field widths. -/
structure SpanContext where
  traceId : Nat
  spanId : Nat
  sampled : Bool
  deriving Repr, DecidableEq

/-- Modelled from the spec: a context carrier holds zero or one current
span plus a baggage mapping. -/
structure Ctx where
  activeSpan : Option SpanContext
  baggage : List (String × String)
  deriving Repr, DecidableEq

/-- A header map (e.g. HTTP headers) used as the propagation carrier. -/
def Carrier : Type := String → Option (List Char)

/-- Sets one header in the carrier. -/
def carrierSet (c : Carrier) (k : String) (v : List Char) : Carrier :=
  fun k' => if k' = k then some v else c k'

/-- A span context is valid when both identifiers are nonzero and fit the
W3C field widths (128-bit trace id, 64-bit span id). -/
def ValidSpanContext (sc : SpanContext) : Prop :=
  0 < sc.traceId ∧ sc.traceId < 16 ^ 32 ∧ 0 < sc.spanId ∧ sc.spanId < 16 ^ 16

instance (sc : SpanContext) : Decidable (ValidSpanContext sc) := by
  unfold ValidSpanContext; infer_instance

/-- Modelled from the spec: the W3C `traceparent` value
`version-traceid-spanid-flags` with version `00` and the sampled bit in the
flags byte. -/
def traceparentChars (sc : SpanContext) : List Char :=
  toHexChars 2 0 ++ '-' ::
    (toHexChars 32 sc.traceId ++ '-' ::
      (toHexChars 16 sc.spanId ++ '-' ::
        toHexChars 2 (if sc.sampled then 1 else 0)))

/-- Modelled from the spec: the TraceContext propagator's inject writes the
active span's identity into the `traceparent` header; with no active span
it writes nothing. -/
def injectTraceContext (ctx : Ctx) (carrier : Carrier) : Carrier :=
  match ctx.activeSpan with
  | none => carrier
  | some sc => carrierSet carrier "traceparent" (traceparentChars sc)

/-- Modelled from the spec: the `baggage` header encodes the baggage
mapping as comma-separated `key=value` pairs. -/
def baggageChars (baggage : List (String × String)) : List Char :=
  List.intercalate [','] (baggage.map (fun kv => kv.1.data ++ '=' :: kv.2.data))

/-- Modelled from the spec: the Baggage propagator's inject writes the
baggage mapping into the `baggage` header when it is nonempty. -/
def injectBaggage (ctx : Ctx) (carrier : Carrier) : Carrier :=
  if ctx.baggage.isEmpty then carrier
  else carrierSet carrier "baggage" (baggageChars ctx.baggage)

/-- Modelled from the spec: the composite propagator applies its
sub-propagators in registration order — TraceContext, then Baggage. -/
def injectComposite (ctx : Ctx) (carrier : Carrier) : Carrier :=
  injectBaggage ctx (injectTraceContext ctx carrier)

/-- Modelled from the spec: handling of the four dash-separated
`traceparent` fields — widths 2, 32, 16, 2, all hex, else no active span. -/
def parseTraceparentFields (ver tid sid fl : List Char) : Option SpanContext :=
  if ver.length = 2 ∧ tid.length = 32 ∧ sid.length = 16 ∧ fl.length = 2 then
    match parseHexChars ver, parseHexChars tid, parseHexChars sid, parseHexChars fl with
    | some _, some t, some s, some f =>
      some { traceId := t, spanId := s, sampled := decide (f % 2 = 1) }
    | _, _, _, _ => none
  else none

/-- Modelled from the spec: parses a `traceparent` value; `none` (no active
span) unless it splits into exactly four dash-separated fields of widths
2, 32, 16, 2 that all parse as hex. -/
def parseTraceparent (cs : List Char) : Option SpanContext :=
  match splitOnChar '-' cs with
  | [ver, tid, sid, fl] => parseTraceparentFields ver tid sid fl
  | _ => none

/-- Modelled from the spec: parses a `baggage` value best-effort, keeping
the `key=value` items. -/
def parseBaggage (cs : List Char) : List (String × String) :=
  (splitOnChar ',' cs).filterMap (fun item =>
    match splitOnChar '=' item with
    | [k, v] => some (String.mk k, String.mk v)
    | _ => none)

/-- Modelled from the spec: composite extract — the TraceContext propagator
reads `traceparent` (absent or malformed yields no active span, never a
failure: the function is total), the Baggage propagator reads `baggage`. -/
def extractComposite (carrier : Carrier) : Ctx :=
  { activeSpan :=
      match carrier "traceparent" with
      | none => none
      | some cs => parseTraceparent cs
    baggage :=
      match carrier "baggage" with
      | none => []
      | some cs => parseBaggage cs }

/-! ## Batching span processor

Modelled from the spec: the batching processor itself lives in the
OpenTelemetry SDK; `InitOpenTelemetry` only configures it
(`sdktrace.WithBatchTimeout(5*time.Second)`,
`sdktrace.WithMaxExportBatchSize(10)`, src/go/final/otel.go lines 40-44).
The model below follows the spec: a queue of finished spans is flushed to
the exporter when either the span-count threshold is reached or the
configured time interval elapses since the last flush, whichever occurs
first. -/

/-- The two batching tunables the repository configures. -/
structure BatchConfig where
  batchTimeoutMs : Nat
  maxExportBatchSize : Nat
  deriving Repr, DecidableEq

/-- The batching configuration produced by `InitOpenTelemetry`. -/
def batchConfigOf (cfg : OtelConfig) : BatchConfig :=
  { batchTimeoutMs := cfg.batchTimeoutMs, maxExportBatchSize := cfg.maxExportBatchSize }

/-- Modelled from the spec: processor state — the queue of finished spans,
the time since the last flush, and the sequence of batches handed to the
exporter so far. -/
structure BatchState (α : Type) where
  queue : List α
  sinceLastFlushMs : Nat
  exported : List (List α)
  deriving Repr, DecidableEq

/-- Modelled from the spec: a finished span is appended to the queue; when
the queue reaches the span-count threshold an export call is made with
exactly `maxExportBatchSize` spans and the remainder stays queued. -/
def enqueueSpan (cfg : BatchConfig) (st : BatchState α) (s : α) : BatchState α :=
  let q := st.queue ++ [s]
  if cfg.maxExportBatchSize ≤ q.length then
    { queue := q.drop cfg.maxExportBatchSize
      sinceLastFlushMs := st.sinceLastFlushMs
      exported := st.exported ++ [q.take cfg.maxExportBatchSize] }
  else
    { st with queue := q }

/-- A burst of finished spans arriving in order. -/
def enqueueAll (cfg : BatchConfig) (st : BatchState α) (spans : List α) : BatchState α :=
  spans.foldl (enqueueSpan cfg) st

/-- Modelled from the spec: the passage of `dt` milliseconds; when the
configured interval has elapsed since the last flush, the whole queue is
exported (when nonempty) and the timer resets. -/
def tickMs (cfg : BatchConfig) (st : BatchState α) (dt : Nat) : BatchState α :=
  let t := st.sinceLastFlushMs + dt
  if cfg.batchTimeoutMs ≤ t then
    match st.queue with
    | [] => { st with sinceLastFlushMs := 0, queue := [] }
    | q => { queue := [], sinceLastFlushMs := 0, exported := st.exported ++ [q] }
  else
    { st with sinceLastFlushMs := t }

/-! ## Span lifecycle

Modelled from the spec: span mutation and completion are SDK behaviour;
the model follows the spec's lifecycle
`Started → (zero or more AddEvent/SetAttribute/SetStatus) → Ended` with an
end timestamp that is set at most once and only while the span is open. -/

/-- A span record: fixed start time, optional end time (absent while the
span is open), and its events. -/
structure SpanRec where
  startTime : Nat
  endTime : Option Nat
  events : List (String × Nat)
  deriving Repr, DecidableEq

/-- Operations applied to a span during its lifetime, each carrying the
clock value at which it is applied. -/
inductive SpanOp where
  | addEvent (name : String) (time : Nat)
  | endSpan (time : Nat)
  deriving Repr, DecidableEq

/-- Modelled from the spec: mutations are accepted only while the span is
open; `endSpan` sets the end timestamp once, and a second `endSpan` (or any
later mutation) is a no-op. -/
def applyOp (s : SpanRec) : SpanOp → SpanRec
  | .addEvent n t =>
    match s.endTime with
    | none => { s with events := s.events ++ [(n, t)] }
    | some _ => s
  | .endSpan t =>
    match s.endTime with
    | none => { s with endTime := some t }
    | some _ => s

/-- Runs a sequence of span operations. -/
def runOps (s : SpanRec) (ops : List SpanOp) : SpanRec :=
  ops.foldl applyOp s

/-- A freshly started span: open, no events. -/
def startedSpan (t : Nat) : SpanRec :=
  { startTime := t, endTime := none, events := [] }

/-- The end-time invariant: the end timestamp is unset or at least the
start timestamp. -/
def EndInv (s : SpanRec) : Prop :=
  ∀ t, s.endTime = some t → s.startTime ≤ t

/-! ## Starting a child span

Modelled from the spec: `tracer.Start` (used at src/go/final/main.go line
60) is SDK behaviour; per the spec, a span started from a context whose
active span is `P` joins `P`'s trace and records `P`'s span id as its
parent, independently of any timestamps. -/

/-- Identity of a started span, plus its start time. -/
structure SpanData where
  traceId : Nat
  spanId : Nat
  parentSpanId : Option Nat
  startTime : Nat
  deriving Repr, DecidableEq

/-- Modelled from the spec: starting a span from a context — with an active
parent it inherits the parent's trace id and links to the parent's span id;
with no parent it starts a fresh root trace. -/
def tracerStart (active : Option SpanData) (freshTraceId freshSpanId startTime : Nat) :
    SpanData :=
  match active with
  | some p =>
    { traceId := p.traceId, spanId := freshSpanId
      parentSpanId := some p.spanId, startTime := startTime }
  | none =>
    { traceId := freshTraceId, spanId := freshSpanId
      parentSpanId := none, startTime := startTime }

/-! ## Stage-01 control flow (src/go/01/main.go) -/

/-- The effectful actions of the stage-01 program, in program order. -/
inductive Action where
  | createStdoutExporter
  | createResource
  | createProvider
  | setGlobalTracerProvider
  | setGlobalPropagator
  | logConfigured
  | providerShutdown
  | routerRun
  deriving Repr, DecidableEq

/-- Embedding of `initOpenTelemetry` (src/go/01/main.go lines 35-66) as the
ordered sequence of effectful actions it performs. The `defer` registered
at lines 55-61 makes `provider.Shutdown` run when `initOpenTelemetry`
returns, i.e. after `otel.SetTracerProvider`, `otel.SetTextMapPropagator`
and the log statement — as the last action of the function. -/
def initOpenTelemetry01Actions : List Action :=
  [.createStdoutExporter, .createResource, .createProvider,
   .setGlobalTracerProvider, .setGlobalPropagator, .logConfigured,
   .providerShutdown]

/-- Embedding of stage-01 `main` (src/go/01/main.go lines 68-78):
`initOpenTelemetry()` runs to completion, then `router.Run()` starts
serving; every request — and hence every request-handling span started by
the otelgin middleware or `handleForm` — is processed inside `routerRun`. -/
def main01Actions : List Action :=
  initOpenTelemetry01Actions ++ [.routerRun]

/-! ## Inputs used by the witness theorems -/

/-- A world whose request construction fails. -/
def wNewReqFails : HttpWorld :=
  { newRequest := .error "bad request", doRequest := .ok ()
    readAll := .ok "", unmarshal := fun _ => (zeroApiResponse, none) }

/-- A world where every step succeeds. -/
def wAllOk : HttpWorld :=
  { newRequest := .ok (), doRequest := .ok (), readAll := .ok "body"
    unmarshal := fun _ => (zeroApiResponse, none) }

/-- The struct contents `json.Unmarshal` leaves behind for a body whose
`activity` field is a string but whose `participants` field is not an
integer: per the `encoding/json` documentation, Unmarshal decodes the
fields it can (`Activity = "run"`), skips the mismatched one, and returns
an `UnmarshalTypeError` at the end. -/
def partialActivityResponse : apiResponse :=
  { zeroApiResponse with activity := "run" }

/-- A world reproducing that documented Go behaviour: request, round-trip
and body read succeed on a JSON body carrying a string where
`participants` expects an integer; `json.Unmarshal` partially populates
the struct and returns an error. -/
def wUnmarshalPartial : HttpWorld :=
  { newRequest := .ok (), doRequest := .ok ()
    readAll := .ok "\x7b\"activity\":\"run\",\"participants\":\"x\"\x7d"
    unmarshal := fun _ =>
      (partialActivityResponse,
        some "json: cannot unmarshal string into Go struct field apiResponse.participants of type int") }

/-- A demonstration span context. -/
def scDemo : SpanContext := { traceId := 171, spanId := 205, sampled := true }

/-- A demonstration context carrier holding `scDemo` and some baggage. -/
def ctxDemo : Ctx := { activeSpan := some scDemo, baggage := [("user", "cat")] }

/-- The empty header map. -/
def emptyCarrier : Carrier := fun _ => none

/-- A header map whose `traceparent` value has a non-hex character. -/
def badCarrier : Carrier :=
  fun k => if k = "traceparent" then some ['0', '0', '-', 'x', 'y'] else none

/-! ### Hex lemmas -/
theorem hexCharVal_hexDigitChar : ∀ v < 16, hexCharVal (hexDigitChar v) = some v := by
  decide

theorem hexDigitChar_ne_dash : ∀ v < 16, hexDigitChar v ≠ '-' := by
  decide

theorem toHexChars_length (w n : Nat) : (toHexChars w n).length = w := by
  induction w generalizing n with
  | zero => rfl
  | succ w ih => simp [toHexChars, ih]

theorem dash_not_mem_toHexChars (w n : Nat) : '-' ∉ toHexChars w n := by
  induction w generalizing n with
  | zero => simp [toHexChars]
  | succ w ih =>
    simp only [toHexChars, List.mem_append, List.mem_singleton]
    rintro (h | h)
    · exact ih _ h
    · exact hexDigitChar_ne_dash (n % 16) (Nat.mod_lt _ (by norm_num)) h.symm

theorem parseHexChars_append (xs ys : List Char) :
    parseHexChars (xs ++ ys) =
      match parseHexChars xs, parseHexChars ys with
      | some a, some b => some (a * 16 ^ ys.length + b)
      | _, _ => none := by
  induction xs with
  | nil =>
    simp only [List.nil_append, parseHexChars]
    rcases parseHexChars ys with _ | b <;> simp
  | cons c xs ih =>
    rw [List.cons_append, parseHexChars, ih, parseHexChars]
    rcases hexCharVal c with _ | v <;>
      rcases hx : parseHexChars xs with _ | a <;>
      rcases hy : parseHexChars ys with _ | b <;>
      (simp [hx, hy, List.length_append, pow_add]; try ring)

theorem parseHexChars_toHexChars (w n : Nat) :
    parseHexChars (toHexChars w n) = some (n % 16 ^ w) := by
  induction w generalizing n with
  | zero => simp [toHexChars, parseHexChars, Nat.mod_one]
  | succ w ih =>
    rw [toHexChars, parseHexChars_append, ih]
    have hd : hexCharVal (hexDigitChar (n % 16)) = some (n % 16) :=
      hexCharVal_hexDigitChar _ (Nat.mod_lt _ (by norm_num))
    simp only [parseHexChars, hd, List.length_nil, List.length_cons, pow_one, pow_zero,
      Nat.mul_one, Nat.add_zero]
    have hm : n % 16 ^ (w + 1) = n % 16 + 16 * (n / 16 % 16 ^ w) := by
      rw [pow_succ']
      exact Nat.mod_mul
    rw [hm]; ring_nf

theorem parseHexChars_none_of_mem {c : Char} {l : List Char}
    (hmem : c ∈ l) (hc : hexCharVal c = none) : parseHexChars l = none := by
  induction l with
  | nil => cases hmem
  | cons d l ih =>
    rcases List.mem_cons.mp hmem with rfl | h
    · simp [parseHexChars, hc]
    · rw [parseHexChars, ih h]
      rcases hexCharVal d with _ | v <;> simp

/-! ### Split lemmas -/
theorem splitOnChar_ne_nil (sep : Char) (l : List Char) : splitOnChar sep l ≠ [] := by
  induction l with
  | nil => simp [splitOnChar]
  | cons c rest ih =>
    rw [splitOnChar]
    by_cases h : c = sep
    · simp [h]
    · simp only [h, if_false]
      rcases hs : splitOnChar sep rest with _ | ⟨f, fs⟩ <;> simp

theorem splitOnChar_no_sep {sep : Char} {a : List Char} (h : sep ∉ a) :
    splitOnChar sep a = [a] := by
  induction a with
  | nil => rfl
  | cons c rest ih =>
    have hc : ¬(c = sep) := fun hcs => h (hcs ▸ List.mem_cons_self c rest)
    have hrest : sep ∉ rest := fun hm => h (List.mem_cons_of_mem c hm)
    rw [splitOnChar, if_neg hc, ih hrest]

theorem splitOnChar_append_sep {sep : Char} {a : List Char} (rest : List Char)
    (h : sep ∉ a) :
    splitOnChar sep (a ++ sep :: rest) = a :: splitOnChar sep rest := by
  induction a with
  | nil => simp [splitOnChar]
  | cons c a ih =>
    have hc : ¬(c = sep) := fun hcs => h (hcs ▸ List.mem_cons_self c a)
    have ha : sep ∉ a := fun hm => h (List.mem_cons_of_mem c hm)
    rw [List.cons_append, splitOnChar, if_neg hc, ih ha]

theorem exists_field_of_mem {sep c : Char} {cs : List Char}
    (hmem : c ∈ cs) (hne : c ≠ sep) :
    ∃ f ∈ splitOnChar sep cs, c ∈ f := by
  induction cs with
  | nil => cases hmem
  | cons d rest ih =>
    rw [splitOnChar]
    by_cases hd : d = sep
    · rcases List.mem_cons.mp hmem with rfl | h
      · exact absurd hd hne
      · obtain ⟨f, hf, hcf⟩ := ih h
        exact ⟨f, by simp [hd, List.mem_cons, hf], hcf⟩
    · rcases hs : splitOnChar sep rest with _ | ⟨f₀, fs⟩
      · exact absurd hs (splitOnChar_ne_nil sep rest)
      · rcases List.mem_cons.mp hmem with rfl | h
        · exact ⟨c :: f₀, by simp [hd], List.mem_cons_self c f₀⟩
        · obtain ⟨f, hf, hcf⟩ := ih h
          rcases List.mem_cons.mp (hs ▸ hf) with rfl | hf'
          · exact ⟨d :: f, by simp [hd], List.mem_cons_of_mem d hcf⟩
          · exact ⟨f, by simp [hd, hf'], hcf⟩

theorem enqueueAll_no_flush {α : Type} (cfg : BatchConfig) (q : List α) (f : Nat)
    (E : List (List α)) (l : List α)
    (h : q.length + l.length < cfg.maxExportBatchSize) :
    enqueueAll cfg ⟨q, f, E⟩ l = ⟨q ++ l, f, E⟩ := by
  induction l generalizing q with
  | nil => simp [enqueueAll]
  | cons s l ih =>
    have hq1 : (q ++ [s]).length = q.length + 1 := by simp
    have hc : q.length + (s :: l).length = q.length + 1 + l.length := by simp; omega
    have hlt : ¬(cfg.maxExportBatchSize ≤ (q ++ [s]).length) := by
      rw [hq1]; rw [hc] at h; omega
    have hstep : enqueueSpan cfg ⟨q, f, E⟩ s = ⟨q ++ [s], f, E⟩ := by
      simp only [enqueueSpan, if_neg hlt]
    rw [enqueueAll, List.foldl_cons, hstep]
    have h' : (q ++ [s]).length + l.length < cfg.maxExportBatchSize := by
      rw [hq1]; rw [hc] at h; omega
    rw [show List.foldl (enqueueSpan cfg) (⟨q ++ [s], f, E⟩ : BatchState α) l =
        enqueueAll cfg ⟨q ++ [s], f, E⟩ l from rfl, ih _ h']
    simp

theorem enqueueAll_count_flush {α : Type} (cfg : BatchConfig) (q : List α) (f : Nat)
    (E : List (List α)) (l : List α)
    (hq : q.length < cfg.maxExportBatchSize)
    (hge : cfg.maxExportBatchSize ≤ q.length + l.length)
    (hlt : q.length + l.length < 2 * cfg.maxExportBatchSize) :
    enqueueAll cfg ⟨q, f, E⟩ l =
      ⟨(q ++ l).drop cfg.maxExportBatchSize, f,
        E ++ [(q ++ l).take cfg.maxExportBatchSize]⟩ := by
  induction l generalizing q E with
  | nil =>
    exfalso
    simp only [List.length_nil, Nat.add_zero] at hge
    omega
  | cons s l ih =>
    rw [enqueueAll, List.foldl_cons]
    have hq1 : (q ++ [s]).length = q.length + 1 := by simp
    have hc : q.length + (s :: l).length = q.length + 1 + l.length := by simp; omega
    rw [hc] at hge hlt
    by_cases htrig : cfg.maxExportBatchSize ≤ (q ++ [s]).length
    · have hlen : (q ++ [s]).length = cfg.maxExportBatchSize := by
        rw [hq1] at htrig ⊢; omega
      have hstep : enqueueSpan cfg ⟨q, f, E⟩ s =
          ⟨[], f, E ++ [q ++ [s]]⟩ := by
        simp only [enqueueSpan, if_pos htrig]
        rw [← hlen, List.drop_length, List.take_length]
      rw [hstep]
      have hl : ([] : List α).length + l.length < cfg.maxExportBatchSize := by
        rw [hq1] at hlen
        simp only [List.length_nil, Nat.zero_add]
        omega
      rw [show List.foldl (enqueueSpan cfg) (⟨[], f, E ++ [q ++ [s]]⟩ : BatchState α) l =
          enqueueAll cfg ⟨[], f, E ++ [q ++ [s]]⟩ l from rfl,
        enqueueAll_no_flush cfg _ _ _ _ hl]
      have hassoc : q ++ s :: l = (q ++ [s]) ++ l := by simp
      rw [hassoc, ← hlen, List.drop_left, List.take_left]
      simp
    · have hstep : enqueueSpan cfg ⟨q, f, E⟩ s = ⟨q ++ [s], f, E⟩ := by
        simp only [enqueueSpan, if_neg htrig]
      rw [hstep]
      rw [hq1] at htrig
      have h1 : (q ++ [s]).length < cfg.maxExportBatchSize := by rw [hq1]; omega
      have h2 : cfg.maxExportBatchSize ≤ (q ++ [s]).length + l.length := by
        rw [hq1]; omega
      have h3 : (q ++ [s]).length + l.length < 2 * cfg.maxExportBatchSize := by
        rw [hq1]; omega
      rw [show List.foldl (enqueueSpan cfg) (⟨q ++ [s], f, E⟩ : BatchState α) l =
          enqueueAll cfg ⟨q ++ [s], f, E⟩ l from rfl, ih _ _ h1 h2 h3]
      simp

theorem applyOp_startTime (s : SpanRec) (op : SpanOp) :
    (applyOp s op).startTime = s.startTime := by
  cases op with
  | addEvent n t => rcases h : s.endTime with _ | t' <;> simp [applyOp, h]
  | endSpan t => rcases h : s.endTime with _ | t' <;> simp [applyOp, h]

theorem applyOp_endTime_some {s : SpanRec} {t : Nat} (op : SpanOp)
    (h : s.endTime = some t) : (applyOp s op).endTime = some t := by
  cases op with
  | addEvent n t' => simp [applyOp, h]
  | endSpan t' => simp [applyOp, h]

theorem runOps_endTime_some {s : SpanRec} {t : Nat} (ops : List SpanOp)
    (h : s.endTime = some t) : (runOps s ops).endTime = some t := by
  induction ops generalizing s with
  | nil => exact h
  | cons op ops ih => exact ih (applyOp_endTime_some op h)

theorem runOps_endInv {s : SpanRec} (ops : List SpanOp)
    (hops : ∀ t, SpanOp.endSpan t ∈ ops → s.startTime ≤ t)
    (hs : EndInv s) : EndInv (runOps s ops) := by
  induction ops generalizing s with
  | nil => exact hs
  | cons op ops ih =>
    rw [runOps, List.foldl_cons]
    have hstart := applyOp_startTime s op
    refine ih (fun t ht => ?_) (fun t ht => ?_)
    · rw [hstart]
      exact hops t (List.mem_cons_of_mem op ht)
    · rw [hstart]
      cases op with
      | addEvent n t' =>
        rcases h : s.endTime with _ | te
        · simp [applyOp, h] at ht
        · simp only [applyOp, h, Option.some.injEq] at ht
          subst ht
          exact hs te h
      | endSpan t' =>
        rcases h : s.endTime with _ | te
        · simp only [applyOp, h, Option.some.injEq] at ht
          subst ht
          exact hops _ (List.mem_cons_self _ _)
        · simp only [applyOp, h, Option.some.injEq] at ht
          subst ht
          exact hs te h

/-! ## Support lemmas for the claim theorems -/
theorem string_ne_empty_iff (s : String) : s ≠ "" ↔ s.length > 0 := by
  obtain ⟨data⟩ := s
  have hmk : ("" : String) = String.mk [] := rfl
  rw [hmk]
  constructor
  · intro h
    cases data with
    | nil => exact absurd rfl h
    | cons c cs => simp [String.length]
  · intro h hne
    injection hne with hd
    subst hd
    simp [String.length] at h

theorem carrierSet_same (c : Carrier) (k : String) (v : List Char) :
    carrierSet c k v k = some v := by
  simp [carrierSet]

theorem carrierSet_other (c : Carrier) (k k' : String) (v : List Char) (h : k' ≠ k) :
    carrierSet c k v k' = c k' := by
  simp [carrierSet, h]

theorem parseTraceparent_eq_fields {cs a b c d : List Char}
    (hs : splitOnChar '-' cs = [a, b, c, d]) :
    parseTraceparent cs = parseTraceparentFields a b c d := by
  unfold parseTraceparent
  rw [hs]

theorem parseTraceparent_traceparentChars (sc : SpanContext)
    (h1 : sc.traceId < 16 ^ 32) (h2 : sc.spanId < 16 ^ 16) :
    parseTraceparent (traceparentChars sc) =
      some { traceId := sc.traceId, spanId := sc.spanId, sampled := sc.sampled } := by
  have hsplit : splitOnChar '-' (traceparentChars sc) =
      [toHexChars 2 0, toHexChars 32 sc.traceId, toHexChars 16 sc.spanId,
        toHexChars 2 (if sc.sampled then 1 else 0)] := by
    unfold traceparentChars
    rw [splitOnChar_append_sep _ (dash_not_mem_toHexChars 2 0),
      splitOnChar_append_sep _ (dash_not_mem_toHexChars 32 sc.traceId),
      splitOnChar_append_sep _ (dash_not_mem_toHexChars 16 sc.spanId),
      splitOnChar_no_sep (dash_not_mem_toHexChars 2 _)]
  rw [parseTraceparent_eq_fields hsplit]
  unfold parseTraceparentFields
  simp only [toHexChars_length, parseHexChars_toHexChars, and_self, if_true]
  rw [Nat.mod_eq_of_lt h1, Nat.mod_eq_of_lt h2]
  rcases hs : sc.sampled with _ | _ <;> simp [hs]

theorem injectComposite_traceparent (ctx : Ctx) (carrier : Carrier) (sc : SpanContext)
    (hactive : ctx.activeSpan = some sc) :
    injectComposite ctx carrier "traceparent" = some (traceparentChars sc) := by
  unfold injectComposite injectBaggage injectTraceContext
  rw [hactive]
  by_cases hb : ctx.baggage.isEmpty
  · rw [if_pos hb]
    exact carrierSet_same _ _ _
  · rw [if_neg hb]
    rw [carrierSet_other _ _ _ _ (by decide)]
    exact carrierSet_same _ _ _

theorem extractComposite_activeSpan (carrier : Carrier) (cs : List Char)
    (h : carrier "traceparent" = some cs) :
    (extractComposite carrier).activeSpan = parseTraceparent cs := by
  simp [extractComposite, h]

theorem parseTraceparent_none_of_field_count {cs : List Char}
    (h : (splitOnChar '-' cs).length ≠ 4) : parseTraceparent cs = none := by
  rcases hs : splitOnChar '-' cs with _ | ⟨a, _ | ⟨b, _ | ⟨c', _ | ⟨d, _ | ⟨e, rest⟩⟩⟩⟩⟩ <;>
    simp_all [parseTraceparent]

theorem parseTraceparentFields_none {a b c d : List Char}
    (hf : parseHexChars a = none ∨ parseHexChars b = none ∨
      parseHexChars c = none ∨ parseHexChars d = none) :
    parseTraceparentFields a b c d = none := by
  unfold parseTraceparentFields
  by_cases hlen : a.length = 2 ∧ b.length = 32 ∧ c.length = 16 ∧ d.length = 2
  · rw [if_pos hlen]
    rcases ha : parseHexChars a with _ | va <;>
      rcases hb : parseHexChars b with _ | vb <;>
      rcases hc : parseHexChars c with _ | vc <;>
      rcases hd : parseHexChars d with _ | vd <;>
      simp_all
  · rw [if_neg hlen]

theorem parseTraceparent_none_of_badchar {cs : List Char} {c : Char}
    (hmem : c ∈ cs) (hdash : c ≠ '-') (hbad : hexCharVal c = none) :
    parseTraceparent cs = none := by
  obtain ⟨f, hf, hcf⟩ := exists_field_of_mem hmem hdash
  have hnone : parseHexChars f = none := parseHexChars_none_of_mem hcf hbad
  rcases hs : splitOnChar '-' cs with _ | ⟨a, _ | ⟨b, _ | ⟨c', _ | ⟨d, _ | ⟨e, rest⟩⟩⟩⟩⟩
  · exact parseTraceparent_none_of_field_count (by rw [hs]; simp)
  · exact parseTraceparent_none_of_field_count (by rw [hs]; simp)
  · exact parseTraceparent_none_of_field_count (by rw [hs]; simp)
  · exact parseTraceparent_none_of_field_count (by rw [hs]; simp)
  · rw [hs] at hf
    simp only [List.mem_cons, List.not_mem_nil, or_false] at hf
    rw [parseTraceparent_eq_fields hs]
    refine parseTraceparentFields_none ?_
    rcases hf with rfl | rfl | rfl | rfl
    · exact Or.inl hnone
    · exact Or.inr (Or.inl hnone)
    · exact Or.inr (Or.inr (Or.inl hnone))
    · exact Or.inr (Or.inr (Or.inr hnone))
  · exact parseTraceparent_none_of_field_count
      (by rw [hs]; simp only [List.length_cons]; omega)

theorem runOps_startTime (s : SpanRec) (ops : List SpanOp) :
    (runOps s ops).startTime = s.startTime := by
  induction ops generalizing s with
  | nil => rfl
  | cons op ops ih => rw [runOps, List.foldl_cons]; rw [show List.foldl applyOp (applyOp s op) ops = runOps (applyOp s op) ops from rfl, ih, applyOp_startTime]

theorem tickMs_flush {α : Type} (cfg : BatchConfig) (x : α) (xs : List α)
    (f dt : Nat) (E : List (List α)) (h : cfg.batchTimeoutMs ≤ f + dt) :
    tickMs cfg ⟨x :: xs, f, E⟩ dt = ⟨[], 0, E ++ [x :: xs]⟩ := by
  simp [tickMs, h]

theorem tickMs_wait {α : Type} (cfg : BatchConfig) (q : List α)
    (f dt : Nat) (E : List (List α)) (h : f + dt < cfg.batchTimeoutMs) :
    tickMs cfg ⟨q, f, E⟩ dt = ⟨q, f + dt, E⟩ := by
  have h' : ¬(cfg.batchTimeoutMs ≤ f + dt) := Nat.not_le.mpr h
  simp [tickMs, h']

/-! ## Claim theorems -/

/-- C1 counterexample: the claim states that the web client's collector
exporter endpoint is, like the Go server's, overridable at process start;
but src/web/final/src/tracer.js passes the fixed literal
`http://localhost:55681/v1/trace` and reads no environment, so supplying
an environment that maps every variable (including `COLLECTOR_ENDPOINT`)
to `http://collector:9999` leaves the url unchanged and unequal to the
attempted override. -/
theorem c1_web_url_not_overridable :
    collectorTraceExporterUrl (fun _ => some "http://collector:9999") =
      collectorTraceExporterUrl (fun _ => none) ∧
    collectorTraceExporterUrl (fun _ => some "http://collector:9999") ≠
      "http://collector:9999" :=
  ⟨rfl, by decide⟩

/-- C1 (amended): in `InitOpenTelemetry` the OTLP exporter targets the
value of `COLLECTOR_ENDPOINT` when that environment variable is set and
`localhost:4317` otherwise; the web client's collector exporter targets
the fixed configured endpoint `http://localhost:55681/v1/trace`, which is
not overridable at process start. -/
theorem c1_endpoint_config (env : String → Option String) :
    (∀ v, env "COLLECTOR_ENDPOINT" = some v → (InitOpenTelemetry env).endpoint = v) ∧
    (env "COLLECTOR_ENDPOINT" = none →
      (InitOpenTelemetry env).endpoint = "localhost:4317") ∧
    collectorTraceExporterUrl env = "http://localhost:55681/v1/trace" := by
  refine ⟨fun v hv => ?_, fun hn => ?_, rfl⟩
  · simp [InitOpenTelemetry, hv]
  · simp [InitOpenTelemetry, hn]

/-- Witness for C1 at concrete environments: with `COLLECTOR_ENDPOINT` set
to `otelcol:4317` the exporter endpoint is `otelcol:4317`; with it unset
the endpoint is `localhost:4317`. -/
theorem c1_endpoint_config_witness :
    (InitOpenTelemetry
      (fun k => if k = "COLLECTOR_ENDPOINT" then some "otelcol:4317" else none)).endpoint =
      "otelcol:4317" ∧
    (InitOpenTelemetry (fun _ => none)).endpoint = "localhost:4317" :=
  ⟨(c1_endpoint_config _).1 "otelcol:4317" rfl,
    (c1_endpoint_config (fun _ => none)).2.1 rfl⟩

/-- C2 counterexample: the claim asserts a zero-valued `apiResponse` on
every error path, the unmarshal step included; but main.go line 87 returns
`activityResponse, err` after `json.Unmarshal`, which per its
documentation decodes the fields it can before returning an
`UnmarshalTypeError`. In the world reproducing that documented behaviour
the function returns the error as claimed, yet the returned response is
partially populated (`activity = "run"`), not the zero value. -/
theorem c2_unmarshal_response_not_zero :
    (getActivityWithParams wUnmarshalPartial "walk").error =
      some "json: cannot unmarshal string into Go struct field apiResponse.participants of type int" ∧
    (getActivityWithParams wUnmarshalPartial "walk").response.activity = "run" ∧
    (getActivityWithParams wUnmarshalPartial "walk").response ≠ zeroApiResponse :=
  ⟨rfl, rfl, by decide⟩

/-- C2 (amended): in `getActivityWithParams`, whichever of the four
fallible steps (request construction, HTTP round-trip, body read, JSON
unmarshal) fails first, the error's message is recorded as an event on the
span started for the function, and the function returns that same error
unchanged; the accompanying `apiResponse` is the zero value when one of
the first three steps fails, and on an unmarshal failure it is exactly
whatever `json.Unmarshal` left in the struct (possibly partially
populated); the span is still ended. -/
theorem c2_error_event_and_propagation (w : HttpWorld) (t : String) :
    (∀ e, w.newRequest = .error e →
      getActivityWithParams w t =
        { response := zeroApiResponse, error := some e
          spanName := "getActivityWithParams", spanAttrs := [("activityType", t)]
          spanEvents := [e], spanEnded := true }) ∧
    (∀ e, w.newRequest = .ok () → w.doRequest = .error e →
      getActivityWithParams w t =
        { response := zeroApiResponse, error := some e
          spanName := "getActivityWithParams", spanAttrs := [("activityType", t)]
          spanEvents := [e], spanEnded := true }) ∧
    (∀ e, w.newRequest = .ok () → w.doRequest = .ok () → w.readAll = .error e →
      getActivityWithParams w t =
        { response := zeroApiResponse, error := some e
          spanName := "getActivityWithParams", spanAttrs := [("activityType", t)]
          spanEvents := [e], spanEnded := true }) ∧
    (∀ e v body, w.newRequest = .ok () → w.doRequest = .ok () → w.readAll = .ok body →
      w.unmarshal body = (v, some e) →
      getActivityWithParams w t =
        { response := v, error := some e
          spanName := "getActivityWithParams", spanAttrs := [("activityType", t)]
          spanEvents := [e], spanEnded := true }) := by
  refine ⟨fun e h1 => ?_, fun e h1 h2 => ?_, fun e h1 h2 h3 => ?_,
    fun e v body h1 h2 h3 h4 => ?_⟩ <;>
    simp [getActivityWithParams, *]

/-- Witness for C2: a failing request construction with message
`bad request` yields exactly that event, that error, and the zero
response. -/
theorem c2_witness :
    getActivityWithParams wNewReqFails "walk" =
      { response := zeroApiResponse, error := some "bad request"
        spanName := "getActivityWithParams", spanAttrs := [("activityType", "walk")]
        spanEvents := ["bad request"], spanEnded := true } :=
  (c2_error_event_and_propagation wNewReqFails "walk").1 "bad request" rfl

/-- C3: injecting a context carrier holding a valid active span into a
header map with the composite propagator (TraceContext then Baggage) and
extracting from that same map yields a context whose active-span trace id
and span id equal the originals. -/
theorem c3_inject_extract_roundtrip (ctx : Ctx) (carrier : Carrier) (sc : SpanContext)
    (hactive : ctx.activeSpan = some sc) (hvalid : ValidSpanContext sc) :
    ∃ sc', (extractComposite (injectComposite ctx carrier)).activeSpan = some sc' ∧
      sc'.traceId = sc.traceId ∧ sc'.spanId = sc.spanId := by
  obtain ⟨-, h1, -, h2⟩ := hvalid
  refine ⟨⟨sc.traceId, sc.spanId, sc.sampled⟩, ?_, rfl, rfl⟩
  rw [extractComposite_activeSpan _ _ (injectComposite_traceparent ctx carrier sc hactive)]
  exact parseTraceparent_traceparentChars sc h1 h2

/-- Witness for C3: round-trip through an empty header map for the
concrete context `ctxDemo`. -/
theorem c3_witness :
    ∃ sc', (extractComposite (injectComposite ctxDemo emptyCarrier)).activeSpan = some sc' ∧
      sc'.traceId = scDemo.traceId ∧ sc'.spanId = scDemo.spanId :=
  c3_inject_extract_roundtrip ctxDemo emptyCarrier scDemo rfl (by decide)

/-- C4: for every header map whose `traceparent` value is absent, has a
field count other than four, or contains a non-hex character, composite
extraction yields a context with no active span; extraction is a total
function, so it never raises or fails the request. -/
theorem c4_malformed_extract (carrier : Carrier) :
    (carrier "traceparent" = none → (extractComposite carrier).activeSpan = none) ∧
    (∀ cs, carrier "traceparent" = some cs → (splitOnChar '-' cs).length ≠ 4 →
      (extractComposite carrier).activeSpan = none) ∧
    (∀ cs c, carrier "traceparent" = some cs → c ∈ cs → c ≠ '-' →
      hexCharVal c = none → (extractComposite carrier).activeSpan = none) := by
  refine ⟨fun h => ?_, fun cs h hc => ?_, fun cs c h hm hd hb => ?_⟩
  · simp [extractComposite, h]
  · rw [extractComposite_activeSpan _ _ h]
    exact parseTraceparent_none_of_field_count hc
  · rw [extractComposite_activeSpan _ _ h]
    exact parseTraceparent_none_of_badchar hm hd hb

/-- Witness for C4: a `traceparent` value containing the non-hex character
`x` extracts to a context with no active span. -/
theorem c4_witness : (extractComposite badCarrier).activeSpan = none :=
  (c4_malformed_extract badCarrier).2.2 ['0', '0', '-', 'x', 'y'] 'x'
    rfl (by decide) (by decide) (by decide)

/-- C5: with the batching configuration of `InitOpenTelemetry`
(batch timeout 5000 ms, max export batch size 10): a burst of finished
spans that reaches the count threshold triggers an export of exactly ten
spans with the remainder left queued; elapse of the five-second interval
flushes the queue; and neither export happens before its trigger —
whichever condition occurs first causes the flush. -/
theorem c5_batch_flush_policy (env : String → Option String) :
    ((batchConfigOf (InitOpenTelemetry env)).batchTimeoutMs = 5000 ∧
      (batchConfigOf (InitOpenTelemetry env)).maxExportBatchSize = 10) ∧
    (∀ (q l : List Nat) (f : Nat) (E : List (List Nat)),
      q.length < 10 → 10 ≤ q.length + l.length → q.length + l.length < 20 →
      enqueueAll (batchConfigOf (InitOpenTelemetry env)) ⟨q, f, E⟩ l =
        ⟨(q ++ l).drop 10, f, E ++ [(q ++ l).take 10]⟩ ∧
      ((q ++ l).take 10).length = 10) ∧
    (∀ (x : Nat) (xs : List Nat) (f dt : Nat) (E : List (List Nat)),
      5000 ≤ f + dt →
      tickMs (batchConfigOf (InitOpenTelemetry env)) ⟨x :: xs, f, E⟩ dt =
        ⟨[], 0, E ++ [x :: xs]⟩) ∧
    (∀ (q l : List Nat) (f : Nat) (E : List (List Nat)),
      q.length + l.length < 10 →
      enqueueAll (batchConfigOf (InitOpenTelemetry env)) ⟨q, f, E⟩ l = ⟨q ++ l, f, E⟩) ∧
    (∀ (q : List Nat) (f dt : Nat) (E : List (List Nat)),
      f + dt < 5000 →
      tickMs (batchConfigOf (InitOpenTelemetry env)) ⟨q, f, E⟩ dt = ⟨q, f + dt, E⟩) := by
  have hcfg : batchConfigOf (InitOpenTelemetry env) = ⟨5000, 10⟩ := rfl
  rw [hcfg]
  refine ⟨⟨rfl, rfl⟩, fun q l f E hq hge hlt => ?_, fun x xs f dt E h => ?_,
    fun q l f E h => ?_, fun q f dt E h => ?_⟩
  · refine ⟨enqueueAll_count_flush _ q f E l hq hge hlt, ?_⟩
    rw [List.length_take, List.length_append]
    omega
  · exact tickMs_flush _ x xs f dt E h
  · exact enqueueAll_no_flush _ q f E l h
  · exact tickMs_wait _ q f dt E h

/-- Witness for C5: from an empty queue, a burst of twelve spans exports
exactly the first ten and leaves two queued; a 5000 ms tick flushes a
nonempty queue; eleven spans below threshold stay queued; a short tick
exports nothing. -/
theorem c5_witness :
    enqueueAll ⟨5000, 10⟩ ⟨[], 0, []⟩ [1, 2, 3, 4, 5, 6, 7, 8, 9, 10, 11, 12] =
      ⟨[11, 12], 0, [[1, 2, 3, 4, 5, 6, 7, 8, 9, 10]]⟩ ∧
    tickMs ⟨5000, 10⟩ ⟨[1, 2], 1000, []⟩ 4000 = ⟨[], 0, [[1, 2]]⟩ ∧
    enqueueAll ⟨5000, 10⟩ ⟨[], 0, []⟩ [1, 2, 3] = ⟨[1, 2, 3], 0, []⟩ ∧
    tickMs ⟨5000, 10⟩ ⟨[1, 2], 1000, []⟩ 3000 = ⟨[1, 2], 4000, []⟩ := by
  have h := c5_batch_flush_policy (fun _ => none)
  have hcfg : batchConfigOf (InitOpenTelemetry (fun _ => none)) = ⟨5000, 10⟩ := rfl
  refine ⟨?_, ?_, ?_, ?_⟩
  · have h2 := (h.2.1 [] [1, 2, 3, 4, 5, 6, 7, 8, 9, 10, 11, 12] 0 []
      (by decide) (by decide) (by decide)).1
    rw [hcfg] at h2
    simpa using h2
  · have h3 := h.2.2.1 1 [2] 1000 4000 [] (by decide)
    rw [hcfg] at h3
    exact h3
  · have h4 := h.2.2.2.1 [] [1, 2, 3] 0 [] (by decide)
    rw [hcfg] at h4
    simpa using h4
  · have h5 := h.2.2.2.2 [1, 2] 1000 3000 [] (by decide)
    rw [hcfg] at h5
    exact h5

/-- C6: for a span started at time `start` and mutated by operations whose
end calls happen at or after `start` (the clock does not run backwards
within a span's lifetime): its end timestamp is unset or at least the
start timestamp, and once set it never changes under any further
operations. -/
theorem c6_end_time_invariant (start : Nat) (ops more : List SpanOp)
    (hops : ∀ t, SpanOp.endSpan t ∈ ops → start ≤ t) :
    ((runOps (startedSpan start) ops).endTime = none ∨
      ∃ t, (runOps (startedSpan start) ops).endTime = some t ∧ start ≤ t) ∧
    (∀ t, (runOps (startedSpan start) ops).endTime = some t →
      (runOps (runOps (startedSpan start) ops) more).endTime = some t) := by
  constructor
  · have hinv : EndInv (runOps (startedSpan start) ops) :=
      runOps_endInv ops (fun t ht => hops t ht)
        (fun t ht => by simp [startedSpan] at ht)
    rcases he : (runOps (startedSpan start) ops).endTime with _ | t
    · exact Or.inl rfl
    · refine Or.inr ⟨t, rfl, ?_⟩
      have h3 := hinv t he
      rw [runOps_startTime] at h3
      simpa [startedSpan] using h3
  · intro t ht
    exact runOps_endTime_some more ht

/-- Witness for C6: a span started at 100 and ended at 110 has end time
110 ≥ 100, unchanged by a later end attempt at 200. -/
theorem c6_witness :
    (runOps (startedSpan 100) [SpanOp.endSpan 110]).endTime = none ∨
      ∃ t, (runOps (startedSpan 100) [SpanOp.endSpan 110]).endTime = some t ∧ 100 ≤ t :=
  (c6_end_time_invariant 100 [SpanOp.endSpan 110] [SpanOp.endSpan 200]
    (by intro t ht; simp at ht; omega)).1

/-- C7: a span started by the tracer from a context whose active span is
`p` inherits `p`'s trace identifier and records `p`'s span identifier as
its parent span identifier, whatever its own start timestamp is — the
causal linkage is independent of timestamp ordering. -/
theorem c7_parent_child_linkage (p : SpanData) (freshTraceId freshSpanId startTime : Nat) :
    (tracerStart (some p) freshTraceId freshSpanId startTime).traceId = p.traceId ∧
    (tracerStart (some p) freshTraceId freshSpanId startTime).parentSpanId =
      some p.spanId :=
  ⟨rfl, rfl⟩

/-- Witness for C7: a concrete child of a concrete parent, started before
its parent's start time, still carries the parent's trace id and span
id. -/
theorem c7_witness :
    (tracerStart (some ⟨7, 8, none, 50⟩) 90 91 10).traceId = 7 ∧
    (tracerStart (some ⟨7, 8, none, 50⟩) 90 91 10).parentSpanId = some 8 :=
  c7_parent_child_linkage ⟨7, 8, none, 50⟩ 90 91 10

/-- C8 counterexample: the claim asserts the fall-through
`c.JSON(http.StatusOK, activity)` writes the zero-valued response on every
error; but when `json.Unmarshal` fails after partially populating the
struct (its documented behaviour on an `UnmarshalTypeError`, reproduced by
`wUnmarshalPartial`), the handler writes the 500 error string and then a
200 JSON body that is partially populated, not the zero value. -/
theorem c8_partial_json_write :
    (handleForm wUnmarshalPartial "walk").writes =
      [ResponseWrite.strWrite 500
          "json: cannot unmarshal string into Go struct field apiResponse.participants of type int",
        ResponseWrite.jsonWrite 200 partialActivityResponse] ∧
    partialActivityResponse ≠ zeroApiResponse :=
  ⟨rfl, by decide⟩

/-- C8 (amended): whenever `getActivityWithParams` returns an error,
`handleForm` writes a 500 string response with the error text and then —
the error branch not returning — also performs `c.JSON(200, activity)`
with the response value `getActivityWithParams` returned: the zero value
when request construction, the HTTP round-trip or the body read failed,
but possibly a partially populated value when JSON unmarshalling failed;
and the 200 JSON write is performed on every request, error or not. -/
theorem c8_error_branch_writes (w : HttpWorld) (ft : String) :
    (∀ e, (getActivityWithParams w ft).error = some e →
      (handleForm w ft).writes =
        [ResponseWrite.strWrite 500 e,
          ResponseWrite.jsonWrite 200 (getActivityWithParams w ft).response]) ∧
    (∀ e, w.newRequest = .error e →
      (getActivityWithParams w ft).response = zeroApiResponse) ∧
    (∀ e, w.newRequest = .ok () → w.doRequest = .error e →
      (getActivityWithParams w ft).response = zeroApiResponse) ∧
    (∀ e, w.newRequest = .ok () → w.doRequest = .ok () → w.readAll = .error e →
      (getActivityWithParams w ft).response = zeroApiResponse) ∧
    ResponseWrite.jsonWrite 200 (getActivityWithParams w ft).response ∈
      (handleForm w ft).writes := by
  refine ⟨fun e he => ?_, fun e h1 => ?_, fun e h1 h2 => ?_, fun e h1 h2 h3 => ?_, ?_⟩
  · simp [handleForm, he]
  · simp [getActivityWithParams, h1]
  · simp [getActivityWithParams, h1, h2]
  · simp [getActivityWithParams, h1, h2, h3]
  · rcases he : (getActivityWithParams w ft).error with _ | e <;> simp [handleForm, he]

/-- Witness for C8: with a failing request construction, the handler
writes the 500 error string and then the 200 JSON zero response. -/
theorem c8_witness :
    (handleForm wNewReqFails "x").writes =
      [ResponseWrite.strWrite 500 "bad request",
        ResponseWrite.jsonWrite 200 zeroApiResponse] :=
  (c8_error_branch_writes wNewReqFails "x").1 "bad request" rfl

/-- C9: `handleForm` sets the server span's boolean attribute `emptyForm`
to `len(formType) > 0` — true exactly when the submitted form field is
non-empty, false exactly when it is empty. -/
theorem c9_emptyForm_attribute (w : HttpWorld) (ft : String) :
    (handleForm w ft).serverSpanAttrs = [("emptyForm", decide (ft.length > 0))] ∧
    ((handleForm w ft).serverSpanAttrs = [("emptyForm", true)] ↔ ft ≠ "") ∧
    ((handleForm w ft).serverSpanAttrs = [("emptyForm", false)] ↔ ft = "") := by
  have h1 : (handleForm w ft).serverSpanAttrs =
      [("emptyForm", decide (ft.length > 0))] := rfl
  refine ⟨h1, ?_, ?_⟩
  · rw [h1, string_ne_empty_iff]
    simp [decide_eq_true_iff]
  · rw [h1]
    rcases Decidable.em (ft = "") with he | he
    · subst he
      simp
    · have hp : ft.length > 0 := (string_ne_empty_iff ft).mp he
      simp [he, hp]

/-- Witness for C9: with the non-empty form field `walk` the attribute is
`("emptyForm", true)`. -/
theorem c9_witness :
    (handleForm wAllOk "walk").serverSpanAttrs = [("emptyForm", true)] :=
  (c9_emptyForm_attribute wAllOk "walk").2.1.mpr (by decide)

/-- C10: in the stage-01 program, `provider.Shutdown` is invoked by a
defer inside `initOpenTelemetry`, so it executes when `initOpenTelemetry`
returns — it is an action of `initOpenTelemetry` itself — and in `main`
every occurrence of the shutdown action strictly precedes `router.Run`,
inside which all request-handling spans are started. -/
theorem c10_shutdown_precedes_serving :
    Action.providerShutdown ∈ initOpenTelemetry01Actions ∧
    (∀ i j : Fin main01Actions.length,
      main01Actions.get i = Action.providerShutdown →
      main01Actions.get j = Action.routerRun → i < j) := by
  decide

/-- Witness for C10: the shutdown action sits at index 6 of the stage-01
main trace and `router.Run` at index 7, and 6 < 7. -/
theorem c10_witness :
    main01Actions.get ⟨6, by decide⟩ = Action.providerShutdown ∧
    main01Actions.get ⟨7, by decide⟩ = Action.routerRun ∧
    (⟨6, by decide⟩ : Fin main01Actions.length) < ⟨7, by decide⟩ :=
  ⟨rfl, rfl, c10_shutdown_precedes_serving.2 ⟨6, by decide⟩ ⟨7, by decide⟩ rfl rfl⟩

end PracticalOtel
